import Mathlib

/-!
Verification of the investment-platform core against its specification.

This file shallowly embeds the core of `src/backend/analytics.py` and
`src/backend/main.py` in Lean 4 and proves (or refutes) the frozen claims
about it.

Modelling conventions:
* Python/numpy floats are modelled by `ℚ` (exact arithmetic).  Irrational
  constants computed by the source (`(1+rf)**(1/252) - 1`, `sqrt(252)`) are
  passed as parameters or modelled by `Rat.sqrt` (exact on perfect squares;
  no claim below depends on the numeric magnitude of these constants, only
  on their sign/zeroness).
* A fetch function (`fetch_func` in the source) is an external effect; it is
  modelled by its outcome: `Except String α` per attempt (the `String` is
  `str(e)`, used by the retry loop to classify rate-limit errors).
* `time.time()` is modelled by a single `now : ℚ` per call (a call is
  idealized as instantaneous; sleeps are recorded in an output trace instead
  of advancing the clock).  Timestamps stored in the cache are `now`.
* A raised Python exception of the modelled code is an `Except.error` /
  `PyErr` value; `none` marks a pandas/NumPy NaN where one can arise.
-/

/-- Python `sep in s` substring test, via `str.split`: `sep` occurs in `s`
iff splitting on it yields more than one piece. -/
def strContains (s sep : String) : Bool :=
  (s.splitOn sep).length > 1

/-- Classification used by the retry loop of `_get_cached_or_fetch`
(analytics.py line 69): `"429" in error_msg or "Too Many Requests" in
error_msg`. -/
def isRateLimitError (msg : String) : Bool :=
  strContains msg "429" || strContains msg "Too Many Requests"

/-- First-match association lookup, modelling a Python dict read
(`_cache[cache_key]`); writes prepend, so the first match is the newest. -/
def lookupKey {β : Type} (l : List (String × β)) (k : String) : Option β :=
  (l.find? (fun p => p.1 == k)).map (fun p => p.2)

/-- Dict write (`_cache[cache_key] = v`): newest entry wins. -/
def insertKey {β : Type} (l : List (String × β)) (k : String) (v : β) :
    List (String × β) :=
  (k, v) :: l

/-- The module-level mutable state of the caching layer: `_cache`
(key ↦ (data, storedAt)) and `_last_request_time` (key ↦ timestamp). -/
structure CacheState (α : Type) where
  cache : List (String × (α × ℚ))
  lastRequestTime : List (String × ℚ)

/-- Result of one `_get_cached_or_fetch` call: the returned value or the
propagated exception, the post-call module state, how many times
`fetch_func` was invoked, and the backoff sleeps performed by the retry
loop, in order. -/
structure FetchOutcome (α : Type) where
  res : Except String α
  state : CacheState α
  fetchCalls : ℕ
  backoffSleeps : List ℚ

/-- The error message of a failed fetch outcome (`str(e)`), if any. -/
def errOf {α : Type} : Except String α → Option String
  | Except.ok _ => none
  | Except.error e => some e

/-- The retry loop of `_get_cached_or_fetch` (analytics.py lines 54-76) over
the remaining attempt indices.  Returns the fetched data (if any attempt
succeeded), `last_error`, the number of `fetch_func` invocations, and the
backoff sleeps.  A 429-classified failure sleeps `(attempt+1)*5` even on the
last attempt; a generic failure sleeps `2^attempt` only when attempts
remain. -/
def retryAttempts {α : Type} (fetch : ℕ → Except String α) :
    List ℕ → Option String → Option α × Option String × ℕ × List ℚ
  | [], lastErr => (none, lastErr, 0, [])
  | a :: rest, lastErr =>
    match fetch a with
    | Except.ok v => (some v, lastErr, 1, [])
    | Except.error e =>
      let sleep : List ℚ :=
        if isRateLimitError e then [((a : ℚ) + 1) * 5]
        else if rest.isEmpty then [] else [(2 : ℚ) ^ a]
      let r := retryAttempts fetch rest (some e)
      (r.1, r.2.1, r.2.2.1 + 1, sleep ++ r.2.2.2)

/-- `for attempt in range(max_retries)` wrapper around `retryAttempts`. -/
def retryFetch {α : Type} (fetch : ℕ → Except String α) (maxRetries : ℕ) :
    Option α × Option String × ℕ × List ℚ :=
  retryAttempts fetch (List.range maxRetries) none

/-- `_get_cached_or_fetch` (analytics.py lines 25-84): fresh-cache fast
path, rate-limit bookkeeping, retry loop, cache write on success, stale
fallback on exhausted retries, re-raise of the last error when no cache
entry exists.  (`raise last_error` with `last_error = None`, reachable only
when `max_retries = 0`, is modelled as a `TypeError` string.) -/
def getCachedOrFetch {α : Type} (key : String) (fetch : ℕ → Except String α)
    (cacheDuration : ℚ) (maxRetries : ℕ) (st : CacheState α) (now : ℚ) :
    FetchOutcome α :=
  match lookupKey st.cache key with
  | some (v, t) =>
    if now - t < cacheDuration then ⟨Except.ok v, st, 0, []⟩
    else getCachedOrFetchMiss key fetch maxRetries st now
  | none => getCachedOrFetchMiss key fetch maxRetries st now
where
  /-- The cache-miss path (rate limiting, retry loop, stale fallback). -/
  getCachedOrFetchMiss (key : String) (fetch : ℕ → Except String α)
      (maxRetries : ℕ) (st : CacheState α) (now : ℚ) : FetchOutcome α :=
    let st1 : CacheState α :=
      { st with lastRequestTime := insertKey st.lastRequestTime key now }
    let r := retryFetch fetch maxRetries
    match r.1 with
    | some v =>
      ⟨Except.ok v,
        { st1 with cache := insertKey st1.cache key (v, now) },
        r.2.2.1, r.2.2.2⟩
    | none =>
      match lookupKey st.cache key with
      | some (v, _) => ⟨Except.ok v, st1, r.2.2.1, r.2.2.2⟩
      | none =>
        ⟨Except.error ((r.2.1).getD "TypeError: exceptions must derive from BaseException"),
          st1, r.2.2.1, r.2.2.2⟩

/-- `_get_cached_or_fetch_api` (main.py lines 28-73): same fast path and
rate-limit bookkeeping, but a single fetch attempt with stale fallback and
no retry loop.  `fetch` is the outcome of the one `fetch_func()` call. -/
def getCachedOrFetchApi {α : Type} (key : String) (fetch : Except String α)
    (cacheDuration : ℚ) (st : CacheState α) (now : ℚ) : FetchOutcome α :=
  match lookupKey st.cache key with
  | some (v, t) =>
    if now - t < cacheDuration then ⟨Except.ok v, st, 0, []⟩
    else getCachedOrFetchApiMiss key fetch st now
  | none => getCachedOrFetchApiMiss key fetch st now
where
  /-- The cache-miss path of the API-layer variant. -/
  getCachedOrFetchApiMiss (key : String) (fetch : Except String α)
      (st : CacheState α) (now : ℚ) : FetchOutcome α :=
    let st1 : CacheState α :=
      { st with lastRequestTime := insertKey st.lastRequestTime key now }
    match fetch with
    | Except.ok v =>
      ⟨Except.ok v, { st1 with cache := insertKey st1.cache key (v, now) },
        1, []⟩
    | Except.error e =>
      match lookupKey st.cache key with
      | some (v, _) => ⟨Except.ok v, st1, 1, []⟩
      | none => ⟨Except.error e, st1, 1, []⟩

section RetryLemmas

variable {α : Type}

/-- If every listed attempt fails, the retry loop returns no data, makes one
invocation per attempt, and `last_error` is the error of the last attempt. -/
theorem retryAttempts_all_fail (fetch : ℕ → Except String α) :
    ∀ (l : List ℕ) (le : Option String),
      (∀ a ∈ l, ∃ e, fetch a = Except.error e) →
      (retryAttempts fetch l le).1 = none ∧
      (retryAttempts fetch l le).2.2.1 = l.length ∧
      (retryAttempts fetch l le).2.1 =
        (match l.getLast? with
         | some a => errOf (fetch a)
         | none => le) := by
  intro l
  induction l with
  | nil => intro le _; simp [retryAttempts]
  | cons a rest ih =>
    intro le hfail
    obtain ⟨e, he⟩ := hfail a (List.mem_cons_self a rest)
    have hrest := ih (some e) (fun b hb => hfail b (List.mem_cons_of_mem a hb))
    simp only [retryAttempts, he]
    refine ⟨hrest.1, ?_, ?_⟩
    · simp [hrest.2.1]
    · rw [hrest.2.2]
      cases rest with
      | nil => simp [he, errOf]
      | cons b rest' => rfl

/-- A successful first listed attempt short-circuits the loop. -/
theorem retryAttempts_first_ok (fetch : ℕ → Except String α) (a : ℕ)
    (rest : List ℕ) (le : Option String) (v : α)
    (h : fetch a = Except.ok v) :
    retryAttempts fetch (a :: rest) le = (some v, le, 1, []) := by
  simp [retryAttempts, h]

/-- The last attempt index of `range n` is `n - 1` (for `0 < n`). -/
theorem getLast?_range (n : ℕ) (h : 0 < n) :
    (List.range n).getLast? = some (n - 1) := by
  obtain ⟨k, rfl⟩ := Nat.exists_eq_add_of_lt h
  simp [List.range_succ]

/-- If every one of `maxRetries ≥ 1` attempts fails, the retry loop yields
no data, invokes the fetch once per attempt, and keeps the last attempt's
error. -/
theorem retryFetch_all_fail (fetch : ℕ → Except String α) (maxRetries : ℕ)
    (hpos : 0 < maxRetries)
    (hfail : ∀ i < maxRetries, ∃ e, fetch i = Except.error e) :
    (retryFetch fetch maxRetries).1 = none ∧
    (retryFetch fetch maxRetries).2.2.1 = maxRetries ∧
    (retryFetch fetch maxRetries).2.1 = errOf (fetch (maxRetries - 1)) := by
  have h := retryAttempts_all_fail fetch (List.range maxRetries) none
    (fun a ha => hfail a (List.mem_range.mp ha))
  refine ⟨h.1, by simpa using h.2.1, ?_⟩
  rw [retryFetch] at *
  rw [h.2.2, getLast?_range maxRetries hpos]

/-- If the first of `maxRetries ≥ 1` attempts succeeds, the retry loop
returns its value after exactly one invocation and no backoff sleep. -/
theorem retryFetch_first_ok (fetch : ℕ → Except String α) (maxRetries : ℕ)
    (hpos : 0 < maxRetries) (v : α) (h : fetch 0 = Except.ok v) :
    retryFetch fetch maxRetries = (some v, none, 1, []) := by
  obtain ⟨k, rfl⟩ := Nat.exists_eq_add_of_lt hpos
  rw [retryFetch, Nat.zero_add, List.range_succ_eq_map]
  exact retryAttempts_first_ok fetch 0 _ none v h

end RetryLemmas

/-- Claim C2: if every fetch attempt fails but a cache entry for the key
exists (fresh or expired), `getOrFetch` returns the cached value instead of
raising; it propagates the last fetch error exactly when no cache entry for
the key exists.  Stated for both implementations: `_get_cached_or_fetch`
(analytics.py, with retries) and `_get_cached_or_fetch_api` (main.py, single
attempt). -/
theorem c2_stale_fallback_or_fetch_error {α : Type} :
    (∀ (key : String) (fetch : ℕ → Except String α) (dur : ℚ) (maxR : ℕ)
        (st : CacheState α) (now : ℚ),
      0 < maxR →
      (∀ i < maxR, ∃ e, fetch i = Except.error e) →
      ((∀ v t, lookupKey st.cache key = some (v, t) →
          (getCachedOrFetch key fetch dur maxR st now).res = Except.ok v) ∧
        (lookupKey st.cache key = none →
          ∃ e, fetch (maxR - 1) = Except.error e ∧
            (getCachedOrFetch key fetch dur maxR st now).res =
              Except.error e))) ∧
    (∀ (key : String) (fetch : Except String α) (dur : ℚ)
        (st : CacheState α) (now : ℚ) (e : String),
      fetch = Except.error e →
      ((∀ v t, lookupKey st.cache key = some (v, t) →
          (getCachedOrFetchApi key fetch dur st now).res = Except.ok v) ∧
        (lookupKey st.cache key = none →
          (getCachedOrFetchApi key fetch dur st now).res =
            Except.error e))) := by
  constructor
  · intro key fetch dur maxR st now hpos hfail
    have hr := retryFetch_all_fail fetch maxR hpos hfail
    constructor
    · intro v t hv
      rw [getCachedOrFetch, hv]
      by_cases hf : now - t < dur
      · simp [hf]
      · simp only [hf, if_false]
        rw [getCachedOrFetch.getCachedOrFetchMiss]
        simp only [hr.1, hv]
    · intro hnone
      obtain ⟨e, he⟩ := hfail (maxR - 1) (Nat.sub_lt hpos Nat.one_pos)
      refine ⟨e, he, ?_⟩
      rw [getCachedOrFetch, hnone, getCachedOrFetch.getCachedOrFetchMiss]
      simp only [hr.1, hnone]
      rw [hr.2.2, he]
      rfl
  · intro key fetch dur st now e hfe
    subst hfe
    constructor
    · intro v t hv
      rw [getCachedOrFetchApi, hv]
      by_cases hf : now - t < dur
      · simp [hf]
      · simp only [hf, if_false, getCachedOrFetchApi.getCachedOrFetchApiMiss,
          hv]
    · intro hnone
      rw [getCachedOrFetchApi, hnone]
      simp only [getCachedOrFetchApi.getCachedOrFetchApiMiss, hnone]

/-- Witness for C2 at concrete inputs: an expired entry `("k", (7, 0))`
with every attempt failing yields the stale `7`; an empty cache yields the
propagated error, for both implementations. -/
theorem c2_stale_fallback_or_fetch_error_witness :
    (getCachedOrFetch "k" (fun _ => Except.error "boom") 10 3
        (CacheState.mk [("k", ((7 : ℕ), 0))] []) 100).res = Except.ok 7 ∧
    (getCachedOrFetch "k" (fun _ => Except.error "boom") 10 3
        (CacheState.mk ([] : List (String × (ℕ × ℚ))) []) 100).res =
      Except.error "boom" ∧
    (getCachedOrFetchApi "k" (Except.error "boom") 10
        (CacheState.mk [("k", ((7 : ℕ), 0))] []) 100).res = Except.ok 7 ∧
    (getCachedOrFetchApi "k" (Except.error "boom") 10
        (CacheState.mk ([] : List (String × (ℕ × ℚ))) []) 100).res =
      Except.error "boom" := by
  have hfail : ∀ i < 3, ∃ e, (fun _ : ℕ => Except.error (α := ℕ) "boom") i =
      Except.error e := fun i _ => ⟨"boom", rfl⟩
  refine ⟨?_, ?_, ?_, ?_⟩
  · exact (c2_stale_fallback_or_fetch_error.1 "k" _ 10 3
      (CacheState.mk [("k", ((7 : ℕ), 0))] []) 100 (by norm_num) hfail).1
      7 0 (by decide)
  · obtain ⟨e, he, hres⟩ := (c2_stale_fallback_or_fetch_error.1 "k" _ 10 3
      (CacheState.mk ([] : List (String × (ℕ × ℚ))) []) 100 (by norm_num)
      hfail).2 (by decide)
    have : e = "boom" := by
      have := he
      simp at this
      exact this.symm
    rw [hres, this]
  · exact (c2_stale_fallback_or_fetch_error.2 "k" _ 10
      (CacheState.mk [("k", ((7 : ℕ), 0))] []) 100 "boom" rfl).1
      7 0 (by decide)
  · exact (c2_stale_fallback_or_fetch_error.2 "k" _ 10
      (CacheState.mk ([] : List (String × (ℕ × ℚ))) []) 100 "boom" rfl).2
      (by decide)

/-- Claim C3: a call strictly within `ttl` of the stored timestamp returns
the identical cached value without invoking the fetch function (and leaves
the state unchanged); an entry is fresh exactly when `now - storedAt < ttl`
(otherwise the fetch function is invoked at least once); and after a
successful fetch stored at time `now`, any call strictly within its `ttl`
returns that identical value with zero fetch invocations.  The API-layer
variant's fresh path is included. -/
theorem c3_fresh_hit_within_ttl {α : Type} :
    (∀ (key : String) (fetch : ℕ → Except String α) (dur : ℚ) (maxR : ℕ)
        (st : CacheState α) (now : ℚ) (v : α) (t : ℚ),
      lookupKey st.cache key = some (v, t) →
      ((now - t < dur →
          getCachedOrFetch key fetch dur maxR st now =
            ⟨Except.ok v, st, 0, []⟩) ∧
        (¬ now - t < dur → 0 < maxR →
          1 ≤ (getCachedOrFetch key fetch dur maxR st now).fetchCalls))) ∧
    (∀ (key : String) (fetch : ℕ → Except String α) (dur : ℚ) (maxR : ℕ)
        (st : CacheState α) (now : ℚ) (v : α),
      fetch 0 = Except.ok v → 0 < maxR →
      lookupKey st.cache key = none →
      ((getCachedOrFetch key fetch dur maxR st now).res = Except.ok v ∧
        ∀ (fetch2 : ℕ → Except String α) (dur2 : ℚ) (maxR2 : ℕ) (now2 : ℚ),
          now2 - now < dur2 →
          getCachedOrFetch key fetch2 dur2 maxR2
              (getCachedOrFetch key fetch dur maxR st now).state now2 =
            ⟨Except.ok v,
              (getCachedOrFetch key fetch dur maxR st now).state, 0, []⟩)) ∧
    (∀ (key : String) (fetch : Except String α) (dur : ℚ)
        (st : CacheState α) (now : ℚ) (v : α) (t : ℚ),
      lookupKey st.cache key = some (v, t) → now - t < dur →
      getCachedOrFetchApi key fetch dur st now = ⟨Except.ok v, st, 0, []⟩) := by
  refine ⟨?_, ?_, ?_⟩
  · intro key fetch dur maxR st now v t hv
    constructor
    · intro hf
      rw [getCachedOrFetch, hv]
      simp [hf]
    · intro hf hpos
      rw [getCachedOrFetch, hv]
      simp only [hf, if_false]
      rw [getCachedOrFetch.getCachedOrFetchMiss]
      obtain ⟨k, rfl⟩ := Nat.exists_eq_add_of_lt hpos
      have hrange : List.range (0 + k + 1) = 0 :: List.map Nat.succ (List.range k) := by
        rw [Nat.zero_add, List.range_succ_eq_map]
      rw [retryFetch, hrange]
      cases h0 : fetch 0 with
      | ok w => simp [retryAttempts, h0]
      | error e =>
        simp only [retryAttempts, h0]
        cases hrec : (retryAttempts fetch (List.map Nat.succ (List.range k)) (some e)).1 with
        | some w => simp [hrec]
        | none => simp [hrec, hv]
  · intro key fetch dur maxR st now v h0 hpos hnone
    have hcall : getCachedOrFetch key fetch dur maxR st now =
        ⟨Except.ok v,
          CacheState.mk (insertKey st.cache key (v, now))
            (insertKey st.lastRequestTime key now), 1, []⟩ := by
      rw [getCachedOrFetch, hnone, getCachedOrFetch.getCachedOrFetchMiss,
        retryFetch_first_ok fetch maxR hpos v h0]
    refine ⟨by rw [hcall], ?_⟩
    intro fetch2 dur2 maxR2 now2 hf2
    rw [hcall]
    rw [getCachedOrFetch]
    have : lookupKey (insertKey st.cache key (v, now)) key = some (v, now) := by
      simp [lookupKey, insertKey, List.find?]
    rw [this]
    simp [hf2]
  · intro key fetch dur st now v t hv hf
    rw [getCachedOrFetchApi, hv]
    simp [hf]

/-- Witness for C3 at concrete inputs: a fresh entry `("k", (7, 0))` read at
`now = 5 < ttl = 10` is returned unchanged with zero fetch invocations, for
both implementations, and a successful fetch followed by a re-read within
the ttl returns the fetched value without fetching again. -/
theorem c3_fresh_hit_within_ttl_witness :
    getCachedOrFetch "k" (fun _ => Except.error "x") 10 3
        (CacheState.mk [("k", ((7 : ℕ), 0))] []) 5 =
      ⟨Except.ok 7, CacheState.mk [("k", ((7 : ℕ), 0))] [], 0, []⟩ ∧
    getCachedOrFetchApi "k" (Except.error "x") 10
        (CacheState.mk [("k", ((7 : ℕ), 0))] []) 5 =
      ⟨Except.ok 7, CacheState.mk [("k", ((7 : ℕ), 0))] [], 0, []⟩ ∧
    (getCachedOrFetch "k" (fun _ => Except.ok (9 : ℕ)) 10 3
        (CacheState.mk [] []) 0).res = Except.ok 9 ∧
    getCachedOrFetch "k" (fun _ => Except.error "x") 10 3
        (getCachedOrFetch "k" (fun _ => Except.ok (9 : ℕ)) 10 3
          (CacheState.mk [] []) 0).state 5 =
      ⟨Except.ok 9,
        (getCachedOrFetch "k" (fun _ => Except.ok (9 : ℕ)) 10 3
          (CacheState.mk [] []) 0).state, 0, []⟩ := by
  refine ⟨?_, ?_, ?_, ?_⟩
  · exact ((c3_fresh_hit_within_ttl.1 "k" _ 10 3
      (CacheState.mk [("k", ((7 : ℕ), 0))] []) 5 7 0 (by decide)).1
      (by norm_num))
  · exact c3_fresh_hit_within_ttl.2.2 "k" _ 10
      (CacheState.mk [("k", ((7 : ℕ), 0))] []) 5 7 0 (by decide) (by norm_num)
  · exact (c3_fresh_hit_within_ttl.2.1 "k" _ 10 3 (CacheState.mk [] []) 0 9
      rfl (by norm_num) (by decide)).1
  · exact (c3_fresh_hit_within_ttl.2.1 "k" _ 10 3 (CacheState.mk [] []) 0 9
      rfl (by norm_num) (by decide)).2 _ 10 3 5 (by norm_num)

/-- Claim C4: with `maxRetries = 3`, a fetch that fails on attempts 0 and 1
and succeeds on attempt 2 yields the successful value after exactly 3
invocations, with two intervening backoff sleeps: `2^attemptIndex` (1s then
2s) for generic errors and `(attemptIndex+1)*5` (5s then 10s) when the error
text contains "429" or "Too Many Requests". -/
theorem c4_retry_backoff_schedule {α : Type} (fetch : ℕ → Except String α)
    (e0 e1 : String) (v : α)
    (h0 : fetch 0 = Except.error e0) (h1 : fetch 1 = Except.error e1)
    (h2 : fetch 2 = Except.ok v) :
    retryFetch fetch 3 =
      (some v, some e1, 3,
        [if isRateLimitError e0 then 5 else 1,
         if isRateLimitError e1 then 10 else 2]) := by
  have hrange : List.range 3 = [0, 1, 2] := rfl
  rw [retryFetch, hrange]
  simp only [retryAttempts, h0, h1, h2, List.isEmpty]
  norm_num
  split_ifs <;> norm_num

/-- Witness for C4: a fetch failing twice (a 429-classified error on
attempt 0, a generic "boom" on attempt 1) then succeeding returns the value
after 3 invocations, with the backoff schedule of the theorem. -/
theorem c4_retry_backoff_schedule_witness :
    retryFetch
        (fun i => match i with
          | 0 => Except.error "HTTP 429"
          | 1 => Except.error "boom"
          | _ => Except.ok (42 : ℕ)) 3 =
      (some 42, some "boom", 3,
        [if isRateLimitError "HTTP 429" then 5 else 1,
         if isRateLimitError "boom" then 10 else 2]) := by
  exact c4_retry_backoff_schedule _ "HTTP 429" "boom" 42 rfl rfl rfl

/-! ## The metrics engine (analytics.py)

Numeric model: numpy float arrays become `List ℚ`; pandas date-indexed
series become `List (ℕ × ℚ)` (date, value).  `np.sqrt` is modelled by
`Rat.sqrt`, which agrees with the real square root on perfect squares of
rationals — the only property any claim uses;
`(1 + risk_free_rate) ** (1/252) - 1` is irrational and is passed to
`calculate_sharpe_ratio` as the parameter `dailyRf`. -/

/-- `np.mean` (population mean); `0` on the empty list (numpy yields NaN
there; no claim touches that case). -/
def meanQ (xs : List ℚ) : ℚ := xs.sum / (xs.length : ℚ)

/-- Population variance, `np.var` / the square of `np.std`. -/
def varPop (xs : List ℚ) : ℚ :=
  meanQ (xs.map (fun x => (x - meanQ xs) ^ 2))

/-- `np.std` (population standard deviation). -/
def stdPop (xs : List ℚ) : ℚ := Rat.sqrt (varPop xs)

/-- Python `round(x, n)` to `n` decimal places. -/
def roundq (n : ℕ) (q : ℚ) : ℚ := ((round (q * 10 ^ n) : ℤ) : ℚ) / 10 ^ n

/-- `hist['Close'].pct_change().dropna()`: day-over-day fractional returns,
indexed by the later date; length = input length − 1. -/
def pctChange (hist : List (ℕ × ℚ)) : List (ℕ × ℚ) :=
  (hist.zip hist.tail).map (fun p => (p.2.1, p.2.2 / p.1.2 - 1))

/-- Value of a date-indexed series at a date (`series[d]`), if present
(first match, mirroring a pandas index lookup). -/
def lookupDate (s : List (ℕ × ℚ)) (d : ℕ) : Option ℚ :=
  match s with
  | [] => none
  | p :: rest => if p.1 = d then some p.2 else lookupDate rest d

/-- The date index of a series. -/
def seriesDates (s : List (ℕ × ℚ)) : List ℕ := s.map Prod.fst

/-- `common_index`: the first series' index successively intersected with
every other series' index (analytics.py lines 171-174 and 302-307). -/
def commonIndexL : List (List (ℕ × ℚ)) → List ℕ
  | [] => []
  | s :: rest =>
    rest.foldl
      (fun acc s2 => acc.filter (fun d => decide (d ∈ seriesDates s2)))
      (seriesDates s)

/-- Python exceptions that the modelled analytics code can raise.
`alignmentError` is the structured error named by the specification; the
source never defines or raises it. -/
inductive PyErr where
  | indexError
  | alignmentError
  deriving DecidableEq

/-- `align_returns` (analytics.py lines 169-181).  On the empty list the
source evaluates `return_series[0]`, raising an uncaught `IndexError`.
Otherwise every series is reindexed to the common date intersection;
`series.reindex(common_index)` yields NaN (modelled `none`) at a date the
series lacks, which cannot happen for dates of the intersection. -/
def align_returns (return_series : List (List (ℕ × ℚ))) :
    Except PyErr (List (List (Option ℚ))) :=
  match return_series with
  | [] => Except.error PyErr.indexError
  | s :: rest =>
    Except.ok ((s :: rest).map
      (fun sr => (commonIndexL (s :: rest)).map (lookupDate sr)))

/-- Reindex to an index known to be contained in the series' dates; the
default `0` is never read for dates of the common intersection. -/
def reindexD (s : List (ℕ × ℚ)) (idx : List ℕ) : List ℚ :=
  idx.map (fun d => (lookupDate s d).getD 0)

/-- `np.cumprod`: running products. -/
def cumprod : List ℚ → List ℚ
  | [] => []
  | x :: xs => x :: (cumprod xs).map (fun y => x * y)

/-- `np.maximum.accumulate`: running maxima. -/
def cummax : List ℚ → List ℚ
  | [] => []
  | x :: xs => x :: (cummax xs).map (fun y => max x y)

/-- `np.min` over a (nonempty) array; `0` for the empty list. -/
def listMin : List ℚ → ℚ
  | [] => 0
  | h :: t => t.foldl min h

/-- `np.max` over a (nonempty) array; `0` for the empty list. -/
def listMax : List ℚ → ℚ
  | [] => 0
  | h :: t => t.foldl max h

/-- `calculate_volatility` (analytics.py lines 184-189):
`np.std(returns) * np.sqrt(252)`. -/
def calculate_volatility (returns : List ℚ) : ℚ :=
  stdPop returns * Rat.sqrt 252

/-- `calculate_sharpe_ratio` (analytics.py lines 192-218).  `dailyRf` is
the precomputed `(1 + risk_free_rate) ** (1/252) - 1`. -/
def calculate_sharpe_ratio (dailyRf : ℚ) (returns : List ℚ) : Option ℚ :=
  if returns.length = 0 then none
  else
    let excess := returns.map (fun r => r - dailyRf)
    if stdPop excess = 0 then none
    else some (meanQ excess / stdPop excess * Rat.sqrt 252)

/-- `calculate_max_drawdown` (analytics.py lines 255-274). -/
def calculate_max_drawdown (returns : List ℚ) : ℚ :=
  if returns.isEmpty then 0
  else
    let cumulative := cumprod (returns.map (fun r => 1 + r))
    let runningMax := cummax cumulative
    let drawdown := List.zipWith (fun c m => (c - m) / m) cumulative runningMax
    |listMin drawdown|

/-- Python `xs[-n:]`, including the `n = 0` quirk (`xs[-0:]` is the whole
list). -/
def takeLastPy {β : Type} (xs : List β) (n : ℕ) : List β :=
  if n = 0 then xs else xs.drop (xs.length - n)

/-- `np.cov(x, y)[0][1]` for equal-length inputs: sample covariance
(ddof = 1); denominator `0` (modelling numpy's NaN) when fewer than 2
points. -/
def covSample (x y : List ℚ) : ℚ :=
  (((x.zip y).map (fun p => (p.1 - meanQ x) * (p.2 - meanQ y))).sum) /
    ((x.length : ℚ) - 1)

/-- `calculate_beta` (analytics.py lines 221-252).  `marketHist` is the
outcome of the SPY fetch (`none` when it raised); both series are
tail-truncated to the shorter length (`[-min_len:]`), `np.cov` on
mismatched lengths raises and is caught (→ `none`), and zero market
variance yields `none`. -/
def calculate_beta (portfolio_returns : List ℚ)
    (marketHist : Option (List (ℕ × ℚ))) : Option ℚ :=
  match marketHist with
  | none => none
  | some hist =>
    let market_returns := (pctChange hist).map (fun p => p.2)
    let minLen := min portfolio_returns.length market_returns.length
    let p := takeLastPy portfolio_returns minLen
    let m := takeLastPy market_returns minLen
    if p.length = m.length then
      let covariance := covSample p m
      let market_variance := varPop m
      if market_variance = 0 then none
      else some (covariance / market_variance)
    else none

/-- The result dictionary of `calculate_portfolio_metrics`. -/
structure MetricsResult where
  sharpe_ratio : Option ℚ
  volatility : ℚ
  beta : Option ℚ
  max_drawdown : ℚ
  average_return : ℚ
  deriving DecidableEq

/-- Python truthiness of an optional float: `None` and `0.0` are falsy. -/
def pyTruthy (x : Option ℚ) : Bool :=
  match x with
  | none => false
  | some v => v != 0

/-- The result assembly of `calculate_portfolio_metrics` (analytics.py
lines 160-166): `round(sharpe_ratio, 4) if sharpe_ratio else None` uses
Python truthiness, so a computed `0.0` is also mapped to `None`; same for
beta. -/
def assembleMetrics (sharpe betaV : Option ℚ) (vol mdd avg : ℚ) :
    MetricsResult where
  sharpe_ratio := if pyTruthy sharpe then sharpe.map (roundq 4) else none
  volatility := roundq 2 (vol * 100)
  beta := if pyTruthy betaV then betaV.map (roundq 4) else none
  max_drawdown := roundq 2 (mdd * 100)
  average_return := roundq 4 avg

/-- A holding together with the outcome of its price-history fetch:
`none` when `stock.history(...)` raised (the loop's `except` path), the
fetched close series otherwise. -/
structure HoldingIn where
  shares : ℚ
  hist : Option (List (ℕ × ℚ))
  deriving DecidableEq

/-- One iteration of the holdings loop (analytics.py lines 109-130): a
failed fetch or empty history contributes nothing; otherwise the holding
contributes its daily-returns series and its current value
`shares * last close` — regardless of that value's sign. -/
def holdingPiece (h : HoldingIn) : Option (List (ℕ × ℚ) × ℚ) :=
  match h.hist with
  | none => none
  | some [] => none
  | some (c :: cs) =>
    some (pctChange (c :: cs),
      h.shares * ((c :: cs).getLast (List.cons_ne_nil c cs)).2)

/-- The weighted-combination loop (analytics.py lines 149-151):
`weighted += weights[i] * aligned[i]` starting from `np.zeros n`. -/
def combine (ws : List ℚ) (series : List (List ℚ)) (n : ℕ) : List ℚ :=
  (ws.zip series).foldl
    (fun acc p => List.zipWith (fun a b => a + b) acc (p.2.map (fun x => p.1 * x)))
    (List.replicate n 0)

/-- `calculate_portfolio_metrics` (analytics.py lines 87-166).  In this ℚ
model `w / 0 = 0`, whereas numpy's float division of a weight vector by a
zero sum silently yields non-finite values (inf/NaN) — the fact relevant to
claim C6 is that the zero-sum case takes this division path and produces a
result rather than raising. -/
def calculate_portfolio_metrics (dailyRf : ℚ) (holdings : List HoldingIn)
    (marketHist : Option (List (ℕ × ℚ))) : MetricsResult :=
  let pieces := holdings.filterMap holdingPiece
  if pieces.isEmpty then
    { sharpe_ratio := none, volatility := 0, beta := none,
      max_drawdown := 0, average_return := 0 }
  else
    let weights := pieces.map (fun p => p.2)
    let wnorm := weights.map (fun w => w / weights.sum)
    let aligned :=
      match align_returns (pieces.map (fun p => p.1)) with
      | Except.ok a => a.map (fun r => r.map (fun o => o.getD 0))
      | Except.error _ => []
    let weighted_returns := combine wnorm aligned (aligned.headD []).length
    assembleMetrics
      (calculate_sharpe_ratio dailyRf weighted_returns)
      (calculate_beta weighted_returns marketHist)
      (calculate_volatility weighted_returns)
      (calculate_max_drawdown weighted_returns)
      (meanQ weighted_returns * 100)

/-- `np.diff(prices)`. -/
def diffList (prices : List ℚ) : List ℚ :=
  (prices.zip prices.tail).map (fun p => p.2 - p.1)

/-- `calculate_rsi` (analytics.py lines 534-559). -/
def calculate_rsi (prices : List ℚ) (period : ℕ) : Option ℚ :=
  if prices.length < period + 1 then none
  else
    let deltas := diffList prices
    let gains := deltas.map (fun d => if 0 < d then d else 0)
    let losses := deltas.map (fun d => if d < 0 then -d else 0)
    let avg_gain := meanQ (takeLastPy gains period)
    let avg_loss := meanQ (takeLastPy losses period)
    if avg_loss = 0 then some 100
    else
      let rs := avg_gain / avg_loss
      some (100 - 100 / (1 + rs))

/-- `get_rsi_signal` (analytics.py lines 562-569). -/
def get_rsi_signal (rsi : ℚ) : String :=
  if 70 ≤ rsi then "Overbought"
  else if rsi ≤ 30 then "Oversold"
  else "Neutral"

/-- Population covariance (the normalizations of `np.corrcoef` cancel, so
the correlation coefficient is this over the product of standard
deviations). -/
def covPop (x y : List ℚ) : ℚ :=
  meanQ ((x.zip y).map (fun p => (p.1 - meanQ x) * (p.2 - meanQ y)))

/-- Pearson correlation coefficient, `np.corrcoef(x, y)[0, 1]` =
`cov(x,y) / (std x * std y)`; over the reals `√a·√b = √(ab)`, written here
with a single `Rat.sqrt` so that the model is exact whenever the product is
a perfect square (in particular for self-pairs). -/
def pearson (x y : List ℚ) : ℚ :=
  covPop x y / Rat.sqrt (varPop x * varPop y)

/-- One entry of the correlation matrix (analytics.py lines 320-325):
rounded Pearson coefficient when both aligned series have more than one
point, `0.0` otherwise. -/
def corrEntry (x y : List ℚ) : ℚ :=
  if 1 < x.length ∧ 1 < y.length then roundq 4 (pearson x y) else 0

/-- The matrix-building loop of `calculate_correlation_matrix`
(analytics.py lines 309-327): `returnsDict` is the post-fetch
`returns_dict` (ticker ↦ daily-returns series). -/
def corrMatrixRaw (returnsDict : List (String × List (ℕ × ℚ))) :
    List (String × List (String × ℚ)) :=
  let common := commonIndexL (returnsDict.map (fun p => p.2))
  returnsDict.map (fun p1 =>
    (p1.1, returnsDict.map (fun p2 =>
      (p2.1, corrEntry (reindexD p1.2 common) (reindexD p2.2 common)))))

/-- `calculate_correlation_matrix` (analytics.py lines 277-327) after the
fetch loop: fewer than two holdings with data yield the structured error
dictionary. -/
def calculate_correlation_matrix
    (returnsDict : List (String × List (ℕ × ℚ))) :
    Except String (List (String × List (String × ℚ))) :=
  if returnsDict.length < 2 then
    Except.error "Need at least 2 holdings to calculate correlation"
  else Except.ok (corrMatrixRaw returnsDict)

/-- Entry `(i, j)` of the nested correlation dictionary (row/column order
is the `returns_dict` key order). -/
def matAt (m : List (String × List (String × ℚ))) (i j : ℕ) : ℚ :=
  (((m.getD i ("", [])).2.getD j ("", 0))).2

section DrawdownLemmas

/-- `cumprod` preserves length. -/
theorem cumprod_length (xs : List ℚ) : (cumprod xs).length = xs.length := by
  induction xs with
  | nil => rfl
  | cons x xs ih => simp [cumprod, ih]

/-- `cumprod xs` lists the prefix products. -/
theorem cumprod_eq_map_range (xs : List ℚ) :
    cumprod xs = (List.range xs.length).map (fun t => (xs.take (t + 1)).prod) := by
  induction xs with
  | nil => rfl
  | cons x xs ih =>
    rw [cumprod, ih, List.length_cons, List.range_succ_eq_map, List.map_cons,
      List.map_map, List.map_map]
    refine List.cons_eq_cons.mpr ⟨by simp, ?_⟩
    apply List.map_congr_left
    intro t ht
    simp [List.take_succ_cons, mul_comm]

/-- Folding `max` from a `max` of two seeds. -/
theorem foldl_max_assoc (t : List ℚ) :
    ∀ a b : ℚ, t.foldl max (max a b) = max a (t.foldl max b) := by
  induction t with
  | nil => intro a b; rfl
  | cons c t ih =>
    intro a b
    rw [List.foldl_cons, List.foldl_cons, max_assoc, ih]

/-- `listMax` of a cons with nonempty tail. -/
theorem listMax_cons (x : ℚ) (l : List ℚ) (h : l ≠ []) :
    listMax (x :: l) = max x (listMax l) := by
  cases l with
  | nil => exact absurd rfl h
  | cons y t => simp [listMax, List.foldl_cons, foldl_max_assoc]

/-- `cummax xs` lists the prefix maxima. -/
theorem cummax_eq_map_range (xs : List ℚ) :
    cummax xs =
      (List.range xs.length).map (fun t => listMax (xs.take (t + 1))) := by
  induction xs with
  | nil => rfl
  | cons x xs ih =>
    rw [cummax, ih, List.length_cons, List.range_succ_eq_map, List.map_cons,
      List.map_map, List.map_map]
    refine List.cons_eq_cons.mpr ⟨by simp [listMax], ?_⟩
    apply List.map_congr_left
    intro t ht
    have hlen : t < xs.length := List.mem_range.mp ht
    have hne : xs.take (t + 1) ≠ [] := by
      apply List.ne_nil_of_length_pos
      rw [List.length_take]
      exact lt_min (Nat.succ_pos t) (Nat.lt_of_le_of_lt (Nat.zero_le t) hlen)
    simp only [Function.comp_apply, List.take_succ_cons]
    exact (listMax_cons x _ hne).symm

end DrawdownLemmas

/-- `cum[t] = Π (1 + returns[0..t])`, the specification's cumulative
product at index `t`. -/
def cumSpec (returns : List ℚ) (t : ℕ) : ℚ :=
  ((returns.take (t + 1)).map (fun r => 1 + r)).prod

/-- `runMax[t] = max(cum[0..t])`, the specification's running maximum. -/
def runMaxSpec (returns : List ℚ) (t : ℕ) : ℚ :=
  listMax ((List.range (t + 1)).map (cumSpec returns))

/-- Claim C7: for every returns array the maximum drawdown equals
`abs (min over t of (cum[t] - runMax[t]) / runMax[t])` with `cum` the
cumulative product of `1 + returns` and `runMax` its running maximum; it is
`0` for the empty array; and for `[0.1, -0.2, 0.05]` it is exactly `0.2`. -/
theorem c7_max_drawdown (rs : List ℚ) :
    calculate_max_drawdown rs =
      (if rs.isEmpty then 0
       else |listMin ((List.range rs.length).map (fun t =>
         (cumSpec rs t - runMaxSpec rs t) / runMaxSpec rs t))|) ∧
    calculate_max_drawdown ([] : List ℚ) = 0 ∧
    calculate_max_drawdown [1/10, -1/5, 1/20] = 1/5 := by
  have key : ∀ rs : List ℚ,
      List.zipWith (fun c m => (c - m) / m)
        (cumprod (rs.map (fun r => 1 + r)))
        (cummax (cumprod (rs.map (fun r => 1 + r)))) =
      (List.range rs.length).map (fun t =>
        (cumSpec rs t - runMaxSpec rs t) / runMaxSpec rs t) := by
    intro rs
    have hxlen : (rs.map (fun r => 1 + r)).length = rs.length :=
      List.length_map rs _
    rw [cummax_eq_map_range, cumprod_eq_map_range, hxlen]
    rw [List.length_map, List.length_range]
    rw [List.zipWith_map, List.zipWith_same]
    apply List.map_congr_left
    intro t ht
    have hlt : t < rs.length := List.mem_range.mp ht
    have hg : ∀ u : ℕ, ((rs.map (fun r => 1 + r)).take (u + 1)).prod =
        cumSpec rs u := by
      intro u
      rw [cumSpec, List.map_take]
    have hh : listMax
        (((List.range rs.length).map
          (fun u => ((rs.map (fun r => 1 + r)).take (u + 1)).prod)).take (t + 1)) =
        runMaxSpec rs t := by
      rw [← List.map_take, List.take_range, Nat.min_eq_left hlt, runMaxSpec]
      apply congrArg
      apply List.map_congr_left
      intro u _
      exact hg u
    rw [hg t, hh]
  refine ⟨?_, rfl, ?_⟩
  · by_cases hrs : rs.isEmpty
    · simp [calculate_max_drawdown, hrs]
    · simp only [calculate_max_drawdown, hrs, Bool.false_eq_true, if_false,
        key rs]
  · norm_num [calculate_max_drawdown, cumprod, cummax, listMin,
      max_def, min_def, abs_eq_max_neg]

/-- Claim C8: RSI is absent for fewer than `period + 1` prices; it is
exactly `100` whenever the trailing-period average loss is exactly zero;
and the signal classification is "Overbought" for values `≥ 70`, "Oversold"
for values `≤ 30`, "Neutral" strictly between. -/
theorem c8_rsi_boundaries :
    (∀ (prices : List ℚ) (period : ℕ), prices.length < period + 1 →
      calculate_rsi prices period = none) ∧
    (∀ (prices : List ℚ) (period : ℕ), ¬ prices.length < period + 1 →
      meanQ (takeLastPy ((diffList prices).map
        (fun d => if d < 0 then -d else 0)) period) = 0 →
      calculate_rsi prices period = some 100) ∧
    (∀ x : ℚ, 70 ≤ x → get_rsi_signal x = "Overbought") ∧
    (∀ x : ℚ, x ≤ 30 → get_rsi_signal x = "Oversold") ∧
    (∀ x : ℚ, 30 < x → x < 70 → get_rsi_signal x = "Neutral") := by
  refine ⟨?_, ?_, ?_, ?_, ?_⟩
  · intro prices period h
    rw [calculate_rsi, if_pos h]
  · intro prices period h hz
    rw [calculate_rsi, if_neg h]
    simp [hz]
  · intro x hx
    rw [get_rsi_signal, if_pos hx]
  · intro x hx
    rw [get_rsi_signal]
    have : ¬ (70 : ℚ) ≤ x := by linarith
    rw [if_neg this, if_pos hx]
  · intro x h30 h70
    rw [get_rsi_signal]
    have h1 : ¬ (70 : ℚ) ≤ x := by linarith
    have h2 : ¬ x ≤ (30 : ℚ) := by linarith
    rw [if_neg h1, if_neg h2]

/-- Witness for C8: 14 prices are too few for period 14; 15 strictly
increasing prices give average loss zero hence RSI exactly 100, classified
"Overbought"; 20 is classified "Oversold"; 50 is "Neutral". -/
theorem c8_rsi_boundaries_witness :
    calculate_rsi ([0, 1, 2, 3, 4, 5, 6, 7, 8, 9, 10, 11, 12, 13] : List ℚ)
        14 = none ∧
    calculate_rsi ([0, 1, 2, 3, 4, 5, 6, 7, 8, 9, 10, 11, 12, 13, 14] : List ℚ)
        14 = some 100 ∧
    get_rsi_signal 100 = "Overbought" ∧
    get_rsi_signal 20 = "Oversold" ∧
    get_rsi_signal 50 = "Neutral" := by
  refine ⟨?_, ?_, ?_, ?_, ?_⟩
  · exact c8_rsi_boundaries.1 _ 14 (by decide)
  · exact c8_rsi_boundaries.2.1 _ 14 (by decide)
      (by norm_num [diffList, takeLastPy, meanQ, List.zip_cons_cons])
  · exact c8_rsi_boundaries.2.2.1 100 (by norm_num)
  · exact c8_rsi_boundaries.2.2.2.1 20 (by norm_num)
  · exact c8_rsi_boundaries.2.2.2.2 50 (by norm_num) (by norm_num)

/-- Claim C10: whenever no holding contributes a return series (its fetch
raised or its history is empty) — in particular for the empty holdings
list — `calculate_portfolio_metrics` returns the fixed result
`{sharpe_ratio: None, volatility: 0.0, beta: None, max_drawdown: 0.0,
average_return: 0.0}` (and, being total, does not raise). -/
theorem c10_empty_portfolio_fixed_result (dailyRf : ℚ)
    (holdings : List HoldingIn) (marketHist : Option (List (ℕ × ℚ)))
    (h : ∀ hd ∈ holdings, hd.hist = none ∨ hd.hist = some []) :
    calculate_portfolio_metrics dailyRf holdings marketHist =
      { sharpe_ratio := none, volatility := 0, beta := none,
        max_drawdown := 0, average_return := 0 } := by
  have hp : holdings.filterMap holdingPiece = [] := by
    rw [List.filterMap_eq_nil_iff]
    intro hd hmem
    rcases h hd hmem with h1 | h1 <;> simp [holdingPiece, h1]
  rw [calculate_portfolio_metrics, hp]
  rfl

/-- Witness for C10: the empty list, and holdings whose fetch raised or
returned an empty history, all yield the fixed result. -/
theorem c10_empty_portfolio_fixed_result_witness :
    calculate_portfolio_metrics 0 [] none =
      { sharpe_ratio := none, volatility := 0, beta := none,
        max_drawdown := 0, average_return := 0 } ∧
    calculate_portfolio_metrics (1/100)
        [HoldingIn.mk 5 none, HoldingIn.mk 3 (some [])] (some [(0, 1)]) =
      { sharpe_ratio := none, volatility := 0, beta := none,
        max_drawdown := 0, average_return := 0 } := by
  constructor
  · exact c10_empty_portfolio_fixed_result 0 [] none (by simp)
  · exact c10_empty_portfolio_fixed_result (1/100) _ _ (by decide)

/-- Helper: the assembled `sharpe_ratio` field is the truthiness-guarded
rounding of the computed value. -/
theorem assembleMetrics_sharpe (s b : Option ℚ) (v m a : ℚ) :
    (assembleMetrics s b v m a).sharpe_ratio =
      if pyTruthy s then s.map (roundq 4) else none := rfl

/-- Helper: the assembled `beta` field, likewise. -/
theorem assembleMetrics_beta (s b : Option ℚ) (v m a : ℚ) :
    (assembleMetrics s b v m a).beta =
      if pyTruthy b then b.map (roundq 4) else none := rfl

/-- Claim C1 (falsified): the code maps a computed value of exactly `0.0`
to `None`.  With daily risk-free rate `r = 1/1000`, the returns `[2r, 0]`
have mean exactly `r`, so the Sharpe ratio computes to exactly `0` — yet
the assembled result reports `sharpe_ratio = None` (line 161 uses Python
truthiness, `round(x, 4) if x else None`).  The same happens for a computed
beta of exactly `0` (line 163): a constant portfolio series against a
varying market gives covariance `0`, hence `beta = 0.0`, reported `None`. -/
theorem c1_zero_sharpe_and_beta_reported_absent :
    calculate_sharpe_ratio (1/1000) [1/500, 0] = some 0 ∧
    (calculate_portfolio_metrics (1/1000)
        [HoldingIn.mk 1 (some [(0, 1), (1, 501/500), (2, 501/500)])]
        none).sharpe_ratio = none ∧
    calculate_beta [1, 1] (some [(0, 1), (1, 2), (2, 1)]) = some 0 ∧
    (calculate_portfolio_metrics (1/1000)
        [HoldingIn.mk 1 (some [(0, 1), (1, 2), (2, 4)])]
        (some [(0, 1), (1, 2), (2, 1)])).beta = none := by
  have hex : List.map (fun r => r - 1/1000) [1/500, 0] =
      [(1 : ℚ)/1000, -(1/1000)] := by norm_num
  have hvar : varPop [(1 : ℚ)/1000, -(1/1000)] = (1/1000) * (1/1000) := by
    norm_num [varPop, meanQ]
  have hstd : stdPop [(1 : ℚ)/1000, -(1/1000)] = 1/1000 := by
    rw [stdPop, hvar, Rat.sqrt_eq]
    norm_num
  have hmean : meanQ [(1 : ℚ)/1000, -(1/1000)] = 0 := by
    norm_num [meanQ]
  have hsharpe : calculate_sharpe_ratio (1/1000) [1/500, 0] = some 0 := by
    simp only [calculate_sharpe_ratio, hex, hstd, hmean]
    norm_num
  have hbeta : calculate_beta [1, 1] (some [(0, 1), (1, 2), (2, 1)]) =
      some 0 := by
    simp only [calculate_beta, pctChange]
    norm_num [takeLastPy, covSample, varPop, meanQ, List.zip_cons_cons]
  have hpipe1 : calculate_portfolio_metrics (1/1000)
      [HoldingIn.mk 1 (some [(0, 1), (1, 501/500), (2, 501/500)])] none =
      assembleMetrics (calculate_sharpe_ratio (1/1000) [1/500, 0])
        (calculate_beta [1/500, 0] none)
        (calculate_volatility [1/500, 0])
        (calculate_max_drawdown [1/500, 0])
        (meanQ [1/500, 0] * 100) := by
    simp only [calculate_portfolio_metrics]
    norm_num [holdingPiece, pctChange, align_returns, commonIndexL,
      seriesDates, lookupDate, combine, List.zip_cons_cons, List.filterMap_cons,
      List.find?, List.replicate, List.getLastD]
  have hpipe2 : calculate_portfolio_metrics (1/1000)
      [HoldingIn.mk 1 (some [(0, 1), (1, 2), (2, 4)])]
      (some [(0, 1), (1, 2), (2, 1)]) =
      assembleMetrics (calculate_sharpe_ratio (1/1000) [1, 1])
        (calculate_beta [1, 1] (some [(0, 1), (1, 2), (2, 1)]))
        (calculate_volatility [1, 1])
        (calculate_max_drawdown [1, 1])
        (meanQ [1, 1] * 100) := by
    simp only [calculate_portfolio_metrics]
    norm_num [holdingPiece, pctChange, align_returns, commonIndexL,
      seriesDates, lookupDate, combine, List.zip_cons_cons, List.filterMap_cons,
      List.find?, List.replicate, List.getLastD]
  refine ⟨hsharpe, ?_, hbeta, ?_⟩
  · rw [hpipe1, assembleMetrics_sharpe, hsharpe]
    simp [pyTruthy]
  · rw [hpipe2, assembleMetrics_beta, hbeta]
    simp [pyTruthy]

/-- Claim C6: two holdings with the same two-point history and opposite
share counts (+1 and −1) pass the empty-portfolio guard with weight vector
`[2, -2]` summing to zero, so `weights / weights.sum()` divides by zero —
numpy emits non-finite values and the function returns a result instead of
failing; and a zero-valued holding is still included with weight `0`
(holdings are never excluded by value). -/
theorem c6_zero_sum_weights_no_explicit_failure :
    (([HoldingIn.mk 1 (some [(0, 1), (1, 2)]),
       HoldingIn.mk (-1) (some [(0, 1), (1, 2)])].filterMap
        holdingPiece).map (fun p => p.2)) = [2, -2] ∧
    (([HoldingIn.mk 1 (some [(0, 1), (1, 2)]),
       HoldingIn.mk (-1) (some [(0, 1), (1, 2)])].filterMap
        holdingPiece).map (fun p => p.2)).sum = 0 ∧
    ¬ ([HoldingIn.mk 1 (some [(0, 1), (1, 2)]),
        HoldingIn.mk (-1) (some [(0, 1), (1, 2)])].filterMap
        holdingPiece).isEmpty = true ∧
    holdingPiece (HoldingIn.mk 0 (some [(0, 1), (1, 2)])) =
      some ([(1, 1)], 0) := by
  refine ⟨?_, ?_, ?_, ?_⟩
  · norm_num [holdingPiece, pctChange, List.filterMap_cons, List.getLastD,
      List.zip_cons_cons]
  · norm_num [holdingPiece, pctChange, List.filterMap_cons, List.getLastD,
      List.zip_cons_cons]
  · norm_num [holdingPiece, pctChange, List.filterMap_cons, List.getLastD,
      List.zip_cons_cons]
  · norm_num [holdingPiece, pctChange, List.getLastD, List.zip_cons_cons]

section AlignLemmas

/-- Membership in an iterated filter fold: the element survives iff it is
in the initial list and passes every filter. -/
theorem mem_foldl_filter {γ : Type} (p : γ → ℕ → Bool) :
    ∀ (l : List γ) (init : List ℕ) (d : ℕ),
      d ∈ l.foldl (fun acc s2 => acc.filter (p s2)) init ↔
        d ∈ init ∧ ∀ s2 ∈ l, p s2 d = true := by
  intro l
  induction l with
  | nil => intro init d; simp
  | cons s l ih =>
    intro init d
    rw [List.foldl_cons, ih]
    simp [List.mem_filter, and_assoc]

/-- The common index contains exactly the dates present in every series. -/
theorem mem_commonIndexL (s : List (ℕ × ℚ)) (rest : List (List (ℕ × ℚ)))
    (d : ℕ) :
    d ∈ commonIndexL (s :: rest) ↔ ∀ s2 ∈ s :: rest, d ∈ seriesDates s2 := by
  rw [commonIndexL, mem_foldl_filter]
  simp [List.forall_mem_cons, decide_eq_true_eq]

end AlignLemmas

/-- Claim C5 (amended part): for every non-empty input, `align_returns`
returns each series reindexed to the common date intersection: all
resulting rows have length equal to the intersection's, position `k` of
every row is the series' value at the `k`-th common date (so corresponding
positions share the same date), and the common index holds exactly the
dates present in every series. -/
theorem c5_align_nonempty_intersection (ss : List (List (ℕ × ℚ)))
    (h : ss ≠ []) :
    align_returns ss =
      Except.ok (ss.map (fun sr => (commonIndexL ss).map (lookupDate sr))) ∧
    (∀ r ∈ ss.map (fun sr => (commonIndexL ss).map (lookupDate sr)),
      r.length = (commonIndexL ss).length) ∧
    (∀ d : ℕ, d ∈ commonIndexL ss ↔ ∀ s ∈ ss, d ∈ seriesDates s) := by
  obtain ⟨s, rest, rfl⟩ := List.exists_cons_of_ne_nil h
  refine ⟨rfl, ?_, fun d => mem_commonIndexL s rest d⟩
  intro r hr
  obtain ⟨sr, _, rfl⟩ := List.mem_map.mp hr
  exact List.length_map _ _

/-- Counterexample for C5 as stated: on the empty list the source evaluates
`return_series[0]` and crashes with an uncaught `IndexError`; no
`AlignmentError` (the structured error the claim names) exists anywhere in
the code. -/
theorem c5_empty_align_raises_index_error :
    align_returns ([] : List (List (ℕ × ℚ))) = Except.error PyErr.indexError ∧
    PyErr.indexError ≠ PyErr.alignmentError :=
  ⟨rfl, by decide⟩

/-- Witness for C5's amended theorem at the specification's own example
(`A: dates 1,2,3`, `B: dates 2,3,4`). -/
theorem c5_align_nonempty_intersection_witness :
    align_returns [[(1, (10 : ℚ)), (2, 20), (3, 30)],
        [(2, (5 : ℚ)), (3, 6), (4, 7)]] =
      Except.ok ([[(1, (10 : ℚ)), (2, 20), (3, 30)],
          [(2, (5 : ℚ)), (3, 6), (4, 7)]].map
        (fun sr =>
          (commonIndexL [[(1, (10 : ℚ)), (2, 20), (3, 30)],
            [(2, (5 : ℚ)), (3, 6), (4, 7)]]).map (lookupDate sr))) :=
  (c5_align_nonempty_intersection _ (List.cons_ne_nil _ _)).1

section CorrelationLemmas

/-- Mapping over the self-zip is mapping the diagonal. -/
theorem zip_self_map {β : Type} (f : ℚ × ℚ → β) :
    ∀ x : List ℚ, (x.zip x).map f = x.map (fun a => f (a, a))
  | [] => rfl
  | a :: x => by
    rw [List.zip_cons_cons, List.map_cons, List.map_cons, zip_self_map f x]

/-- Mapping over a zip with the arguments swapped. -/
theorem zip_map_swap {β : Type} (f : ℚ × ℚ → β) :
    ∀ x y : List ℚ,
      (x.zip y).map f = (y.zip x).map (fun p => f (p.2, p.1))
  | [], y => by simp
  | a :: x, [] => by simp
  | a :: x, b :: y => by
    rw [List.zip_cons_cons, List.zip_cons_cons, List.map_cons, List.map_cons,
      zip_map_swap f x y]

/-- Population covariance is symmetric. -/
theorem covPop_comm (x y : List ℚ) : covPop x y = covPop y x := by
  rw [covPop, covPop,
    zip_map_swap (fun p => (p.1 - meanQ x) * (p.2 - meanQ y)) x y]
  apply congrArg
  apply List.map_congr_left
  intro p _
  exact mul_comm _ _

/-- The self-covariance is the population variance. -/
theorem covPop_self (x : List ℚ) : covPop x x = varPop x := by
  rw [covPop, varPop,
    zip_self_map (fun p => (p.1 - meanQ x) * (p.2 - meanQ x)) x]
  apply congrArg
  apply List.map_congr_left
  intro a _
  exact (pow_two _).symm

/-- Population variance is nonnegative. -/
theorem varPop_nonneg (x : List ℚ) : 0 ≤ varPop x := by
  rw [varPop, meanQ]
  apply div_nonneg
  · apply List.sum_nonneg
    intro a ha
    obtain ⟨b, _, rfl⟩ := List.mem_map.mp ha
    exact sq_nonneg _
  · exact_mod_cast Nat.zero_le _

/-- Pearson correlation is symmetric. -/
theorem pearson_comm (x y : List ℚ) : pearson x y = pearson y x := by
  rw [pearson, pearson, covPop_comm, mul_comm]

/-- A self-pair with nonzero variance has correlation exactly 1. -/
theorem pearson_self (x : List ℚ) (h : varPop x ≠ 0) : pearson x x = 1 := by
  rw [pearson, covPop_self, Rat.sqrt_eq, abs_of_nonneg (varPop_nonneg x),
    div_self h]

/-- `round(1.0, 4) = 1.0`. -/
theorem roundq_four_one : roundq 4 1 = 1 := by
  norm_num [roundq, round_eq]

/-- Correlation-matrix entries are symmetric in their arguments. -/
theorem corrEntry_comm (x y : List ℚ) : corrEntry x y = corrEntry y x := by
  rw [corrEntry, corrEntry, pearson_comm]
  by_cases h : 1 < x.length ∧ 1 < y.length
  · rw [if_pos h, if_pos ⟨h.2, h.1⟩]
  · rw [if_neg h, if_neg (fun hc => h ⟨hc.2, hc.1⟩)]

end CorrelationLemmas

/-- Entry `(i, j)` of the built matrix is the `corrEntry` of the reindexed
`i`-th and `j`-th series. -/
theorem matAt_corrMatrixRaw (rd : List (String × List (ℕ × ℚ))) (i j : ℕ)
    (hi : i < rd.length) (hj : j < rd.length) :
    matAt (corrMatrixRaw rd) i j =
      corrEntry
        (reindexD (rd.getD i ("", [])).2
          (commonIndexL (rd.map (fun p => p.2))))
        (reindexD (rd.getD j ("", [])).2
          (commonIndexL (rd.map (fun p => p.2)))) := by
  simp only [matAt, corrMatrixRaw, List.getD_eq_getElem?_getD,
    List.getElem?_map, List.getElem?_eq_getElem hi,
    List.getElem?_eq_getElem hj, Option.map_some', Option.getD_some]

/-- Claim C9 (amended): the correlation matrix is symmetric
(`corr[i][j] = corr[j][i]` for all row/column positions); a self-pair whose
aligned series has more than one point *and nonzero variance* equals
exactly 1; and every pair is reported as `0.0` when the common index has
fewer than 2 points. -/
theorem c9_correlation_matrix_properties
    (rd : List (String × List (ℕ × ℚ))) :
    (∀ i j, i < rd.length → j < rd.length →
      matAt (corrMatrixRaw rd) i j = matAt (corrMatrixRaw rd) j i) ∧
    (∀ i, i < rd.length →
      1 < (commonIndexL (rd.map (fun p => p.2))).length →
      varPop (reindexD (rd.getD i ("", [])).2
        (commonIndexL (rd.map (fun p => p.2)))) ≠ 0 →
      matAt (corrMatrixRaw rd) i i = 1) ∧
    (∀ i j, i < rd.length → j < rd.length →
      (commonIndexL (rd.map (fun p => p.2))).length ≤ 1 →
      matAt (corrMatrixRaw rd) i j = 0) := by
  refine ⟨?_, ?_, ?_⟩
  · intro i j hi hj
    rw [matAt_corrMatrixRaw rd i j hi hj, matAt_corrMatrixRaw rd j i hj hi,
      corrEntry_comm]
  · intro i hi hlen hvar
    rw [matAt_corrMatrixRaw rd i i hi hi, corrEntry]
    have hxlen : 1 < (reindexD (rd.getD i ("", [])).2
        (commonIndexL (rd.map (fun p => p.2)))).length := by
      rw [reindexD, List.length_map]
      exact hlen
    rw [if_pos ⟨hxlen, hxlen⟩, pearson_self _ hvar, roundq_four_one]
  · intro i j hi hj hlen
    rw [matAt_corrMatrixRaw rd i j hi hj, corrEntry]
    have hxlen : ¬ 1 < (reindexD (rd.getD i ("", [])).2
        (commonIndexL (rd.map (fun p => p.2)))).length := by
      rw [reindexD, List.length_map]
      exact Nat.not_lt.mpr hlen
    rw [if_neg (fun hc => hxlen hc.1)]

/-- Counterexample for C9 as stated: a constant aligned series (two points,
both `5`) has zero variance, `np.corrcoef` divides `0/0` (NaN in the
source's floating arithmetic, `0` in this exact model), and the self-pair
entry is not within `1e-9` of `1.0`. -/
theorem c9_constant_series_self_entry_not_one :
    ¬ (|matAt (corrMatrixRaw
        [("A", [(0, 5), (1, 5)]), ("B", [(0, 1), (1, 2)])]) 0 0 - 1| ≤
      1 / 1000000000) := by
  have hz : matAt (corrMatrixRaw
      [("A", [(0, 5), (1, 5)]), ("B", [(0, 1), (1, 2)])]) 0 0 = 0 := by
    norm_num [matAt, corrMatrixRaw, corrEntry, reindexD, lookupDate,
      commonIndexL, seriesDates, pearson, covPop, varPop, meanQ, roundq,
      round_eq, List.zip_cons_cons, List.filter]
  rw [hz]
  norm_num

/-- Witness for C9's amended theorem: a 2×2 matrix over two two-point
series; symmetry at `(0, 1)`, self-pair `1.0` at `(0, 0)` for the
nonconstant series `[1, 3]`, and the `0.0` report when the common index is
a single date. -/
theorem c9_correlation_matrix_properties_witness :
    matAt (corrMatrixRaw
        [("A", [(0, 1), (1, 3)]), ("B", [(0, 2), (1, 1)])]) 0 1 =
      matAt (corrMatrixRaw
        [("A", [(0, 1), (1, 3)]), ("B", [(0, 2), (1, 1)])]) 1 0 ∧
    matAt (corrMatrixRaw
        [("A", [(0, 1), (1, 3)]), ("B", [(0, 2), (1, 1)])]) 0 0 = 1 ∧
    matAt (corrMatrixRaw [("A", [(0, (1 : ℚ))]), ("B", [(0, 2)])]) 0 1 = 0 := by
  refine ⟨?_, ?_, ?_⟩
  · exact (c9_correlation_matrix_properties _).1 0 1 (by norm_num) (by norm_num)
  · apply (c9_correlation_matrix_properties _).2.1 0 (by norm_num)
    · norm_num [commonIndexL, seriesDates, List.filter]
    · norm_num [reindexD, lookupDate, commonIndexL, seriesDates, varPop,
        meanQ, List.filter]
  · apply (c9_correlation_matrix_properties _).2.2 0 1 (by norm_num)
      (by norm_num)
    norm_num [commonIndexL, seriesDates, List.filter]
